import Mathlib

/-!
Verification development for the Car_Recommendation_Chatbot repository's
retrieval core: the two vector-store providers (ChromaDBProvider,
QdrantDBProvider), the data-processing controller, the RAG controller and the
LLM provider factory, shallowly embedded in Lean.

Python exceptions are modelled with `Except PyError`; a Python `try/except`
block that logs and returns a default is modelled by matching on the `Except`
value.  The vendor database clients (chromadb, qdrant_client) are external
collaborators and appear only at their interface boundary: either as concrete
association-list states (for the happy-path embedded local database) or as
function parameters standing for one backend call (success/failure supplied by
the environment).  Vectors are opaque payloads here (no arithmetic is ever
performed on them by this layer), so they are modelled as `List Int`.
-/

/-- The Python exception kinds this layer can observe. -/
inductive PyError where
  | typeError
  | valueError
  | indexError
  | backendError
deriving Repr, DecidableEq

/-- Metadata dictionaries (string keys, string scalar values). -/
abbrev Md := List (String × String)

/-- Output projection of a similarity search: `(text, score)`. -/
structure RetrievedDocument where
  text : String
  score : Int
deriving Repr, DecidableEq

/-- Result of a (batched) insert call: the returned boolean and the ordered
trace of backend calls that were attempted. -/
structure InsertTrace (π : Type) where
  ret : Bool
  calls : List π
deriving Repr, DecidableEq

/-- Consecutive slices of size `b` (the last may be shorter), mirroring
`for i in range(0, len(xs), b): xs[i:i+b]`.  Python raises `ValueError` for a
zero step; callers of this function guard `b ≠ 0` themselves. -/
def chunks {α : Type} (b : Nat) (l : List α) : List (List α) :=
  match b, l with
  | _, [] => []
  | 0, _ :: _ => []
  | b + 1, x :: xs => ((x :: xs).take (b + 1)) :: chunks (b + 1) ((x :: xs).drop (b + 1))
termination_by l.length
decreasing_by simp [List.length_drop]; omega

/-- Sequential batch submission that aborts at the first rejected batch:
the shared control skeleton of both providers' `insert_many` loops.
`ok p` is the outcome of the one backend call submitting payload `p`. -/
def batchOutcome {π : Type} (ok : π → Bool) : List π → InsertTrace π
  | [] => ⟨true, []⟩
  | p :: ps =>
    if ok p then
      let t := batchOutcome ok ps
      ⟨t.ret, p :: t.calls⟩
    else ⟨false, [p]⟩

theorem chunks_flatten {α : Type} (b : Nat) (hb : 0 < b) (l : List α) :
    (chunks b l).flatten = l := by
  match b, l with
  | b + 1, [] => simp [chunks]
  | b + 1, x :: xs =>
    rw [chunks]
    have ih := chunks_flatten (b + 1) hb ((x :: xs).drop (b + 1))
    simp only [List.flatten_cons, ih, List.take_append_drop]
termination_by l.length
decreasing_by simp [List.length_drop]; omega

theorem chunks_length_le {α : Type} (b : Nat) (l : List α) :
    ∀ c ∈ chunks b l, c.length ≤ b := by
  match b, l with
  | b + 1, [] => simp [chunks]
  | 0, [] => simp [chunks]
  | 0, x :: xs => simp [chunks]
  | b + 1, x :: xs =>
    intro c hc
    rw [chunks, List.mem_cons] at hc
    rcases hc with hc | hc
    · subst hc; simp
    · exact chunks_length_le (b + 1) ((x :: xs).drop (b + 1)) c hc
termination_by l.length
decreasing_by simp [List.length_drop]; omega

theorem chunks_ne_nil {α : Type} (b : Nat) (l : List α) :
    ∀ c ∈ chunks b l, c ≠ [] := by
  match b, l with
  | b + 1, [] => simp [chunks]
  | 0, [] => simp [chunks]
  | 0, x :: xs => simp [chunks]
  | b + 1, x :: xs =>
    intro c hc
    rw [chunks, List.mem_cons] at hc
    rcases hc with hc | hc
    · subst hc; simp
    · exact chunks_ne_nil (b + 1) ((x :: xs).drop (b + 1)) c hc
termination_by l.length
decreasing_by simp [List.length_drop]; omega

theorem batchOutcome_all_true {π : Type} (ok : π → Bool) (ps : List π)
    (h : ∀ p ∈ ps, ok p = true) : batchOutcome ok ps = ⟨true, ps⟩ := by
  induction ps with
  | nil => rfl
  | cons p ps ih =>
    have hp : ok p = true := h p (by simp)
    simp only [batchOutcome, hp, if_true, ih fun q hq => h q (by simp [hq])]

/-- Abort-at-first-failure semantics of the batch loop: either every batch is
accepted and all of them are submitted, or there is a first rejected batch `k`,
all batches before it were accepted, and only batches `0..k` were attempted. -/
theorem batchOutcome_spec {π : Type} (ok : π → Bool) (ps : List π) :
    (batchOutcome ok ps = ⟨true, ps⟩ ∧ ∀ p ∈ ps, ok p = true) ∨
    (∃ k, k < ps.length ∧ (∀ p ∈ ps.take k, ok p = true) ∧
      (∃ pk, ps.get? k = some pk ∧ ok pk = false) ∧
      batchOutcome ok ps = ⟨false, ps.take (k + 1)⟩) := by
  induction ps with
  | nil => left; exact ⟨rfl, by simp⟩
  | cons p ps ih =>
    by_cases hp : ok p = true
    · rcases ih with ⟨heq, hall⟩ | ⟨k, hk, hpre, ⟨pk, hget, hko⟩, heq⟩
      · left
        refine ⟨?_, ?_⟩
        · simp only [batchOutcome, hp, if_true, heq]
        · intro q hq
          rcases List.mem_cons.mp hq with h | h
          · exact h ▸ hp
          · exact hall q h
      · right
        refine ⟨k + 1, by simpa using Nat.succ_lt_succ hk, ?_, ⟨pk, by simpa using hget, hko⟩, ?_⟩
        · intro q hq
          rw [List.take_succ_cons] at hq
          rcases List.mem_cons.mp hq with h | h
          · exact h ▸ hp
          · exact hpre q h
        · simp only [batchOutcome, hp, if_true, heq, List.take_succ_cons]
    · right
      refine ⟨0, by simp, by simp, ⟨p, by simp, by simpa using hp⟩, ?_⟩
      simp only [batchOutcome, hp, if_false, List.take_succ_cons, List.take_zero]
      simp

theorem batchOutcome_const_true {π : Type} (ps : List π) :
    batchOutcome (fun _ => true) ps = ⟨true, ps⟩ :=
  batchOutcome_all_true _ ps (by intro p _; rfl)

namespace ChromaDB

/-- One stored record of the embedded Chroma collection, in the field order of
the `collection.add(documents, metadatas, ids, embeddings)` call. -/
structure CRec where
  doc : String
  md : Md
  rid : String
  emb : List Int
deriving Repr, DecidableEq

/-- The embedded Chroma database state at its interface boundary: the named
collections and their stored records. -/
abbrev Store := List (String × List CRec)

/-- `is_collection_existed`: scans `client.list_collections()` for the name. -/
def is_collection_existed (s : Store) (n : String) : Bool :=
  s.any (fun c => c.1 == n)

/-- `delete_collection`: deletes the collection only if it exists. -/
def delete_collection (s : Store) (n : String) : Store :=
  if is_collection_existed s n then s.filter (fun c => c.1 != n) else s

/-- `create_collection`: optional reset, then create only if absent; returns
whether a new collection was created.  (`embedding_size` is accepted by the
source with default `None` and never used, so it is omitted here.) -/
def create_collection (s : Store) (n : String) (do_reset : Bool) : Bool × Store :=
  let s1 := if do_reset then delete_collection s n else s
  if !(is_collection_existed s1 n) then (true, (n, []) :: s1) else (false, s1)

/-- Contents of the named collection, if it exists. -/
def getCol (s : Store) (n : String) : Option (List CRec) :=
  (s.find? (fun c => c.1 == n)).map (fun c => c.2)

/-- `get_collection_info`: name and count on success; the `except` branch
returns an empty dict for a missing collection, modelled as `none`. -/
def get_collection_info (s : Store) (n : String) : Option (String × Nat) :=
  match getCol s n with
  | some c => some (n, c.length)
  | none => none

/-- The argument tuple of one `collection.add` backend call, in source order:
documents, metadatas, ids, embeddings. -/
structure CPayload where
  documents : List String
  metadatas : List Md
  ids : List String
  embeddings : List (List Int)
deriving Repr, DecidableEq

/-- `insert_one`: existence guard, then defaults (`record_id` falls back to a
fresh `uuid4` string supplied here as `fresh`, `metadata` to `{}`), then a
single `collection.add` inside `try`; an exception becomes `False`.
`add` is the external client call; `calls` traces the adds attempted. -/
def insert_one (collection_exists : Bool) (add : CPayload → Bool) (fresh : String)
    (text : String) (vector : List Int)
    (metadata : Option Md) (record_id : Option String) : InsertTrace CPayload :=
  if !collection_exists then ⟨false, []⟩
  else
    let rid := record_id.getD fresh
    let md := metadata.getD []
    let p : CPayload := ⟨[text], [md], [rid], [vector]⟩
    ⟨add p, [p]⟩

/-- The `for i in range(0, len(texts), batch_size)` loop of `insert_many`,
slicing all four lists and submitting one `collection.add` per batch.  A
`batch_size` of zero makes `range` raise `ValueError`, which the surrounding
`except` turns into `False`. -/
def chromaLoop (add : CPayload → Bool) (b : Nat) (txts : List String)
    (vecs : List (List Int)) (mds : List Md) (rids : List String) :
    InsertTrace CPayload :=
  if hb : b = 0 then ⟨false, []⟩
  else if ht : txts.isEmpty then ⟨true, []⟩
  else
    let p : CPayload := ⟨txts.take b, mds.take b, rids.take b, vecs.take b⟩
    if add p then
      let t := chromaLoop add b (txts.drop b) (vecs.drop b) (mds.drop b) (rids.drop b)
      ⟨t.ret, p :: t.calls⟩
    else ⟨false, [p]⟩
termination_by txts.length
decreasing_by
  simp only [List.length_drop]
  rcases txts with _ | ⟨x, xs⟩
  · simp at ht
  · simp only [List.length_cons]; omega

/-- `insert_many`: defaults for metadata (`[{}] * len(texts)`) and ids
(`[str(i) for i in range(len(texts))]`), then `get_collection` inside `try`
(modelled by `collection_ok`; a missing collection raises there, caught by the
`except`, returning `False`), then the batch loop. -/
def insert_many (collection_ok : Bool) (add : CPayload → Bool)
    (texts : List String) (vectors : List (List Int))
    (metadata : Option (List Md)) (record_ids : Option (List String))
    (batch_size : Nat) : InsertTrace CPayload :=
  let md := metadata.getD (List.replicate texts.length [])
  let rids := record_ids.getD ((List.range texts.length).map toString)
  if !collection_ok then ⟨false, []⟩
  else chromaLoop add batch_size texts vectors md rids

/-- The raw dict returned by the external `collection.query` call:
`ids`, `documents`, `distances`, each a list per query vector. -/
structure QueryResult where
  ids : List (List String)
  documents : List (List String)
  distances : List (List Int)
deriving Repr, DecidableEq

/-- The `try` body of `search_by_vector`: `get_collection` (raises for a
missing collection, modelled by `collection_ok`), the backend `query` call
(outcome supplied by the environment), the emptiness guard, then zipping
`documents[0]` with `distances[0]` (indexing `[0]` raises `IndexError` when
those lists are empty). -/
def searchBody (collection_ok : Bool) (query : Except PyError QueryResult) :
    Except PyError (Option (List RetrievedDocument)) := do
  if !collection_ok then
    Except.error PyError.valueError
  else
    let results ← query
    match results.ids with
    | [] => Except.ok none
    | ids0 :: _ =>
      if ids0.length == 0 then Except.ok none
      else
        match results.documents, results.distances with
        | docs0 :: _, dists0 :: _ =>
          Except.ok (some ((docs0.zip dists0).map fun d => ⟨d.1, d.2⟩))
        | _, _ => Except.error PyError.indexError

/-- `search_by_vector`: the whole body is inside `try`; any exception is
logged and becomes `None`. -/
def search_by_vector (collection_ok : Bool) (query : Except PyError QueryResult) :
    Option (List RetrievedDocument) :=
  match searchBody collection_ok query with
  | Except.ok r => r
  | Except.error _ => none

end ChromaDB

namespace QdrantDB

/-- A Qdrant point id: the source's default ids are ints
(`list(range(0, len(texts)))`), while callers may pass strings. -/
inductive QId where
  | intId (n : Nat)
  | strId (s : String)
deriving Repr, DecidableEq

/-- One `models.Record`: id, vector, and the payload dict
`{"text": ..., "metadata": ...}` (metadata may be `None`). -/
structure QRec where
  rid : QId
  vec : List Int
  text : String
  md : Option Md
deriving Repr, DecidableEq

/-- A Qdrant collection: its configured vector size and stored records. -/
structure QCol where
  size : Nat
  recs : List QRec
deriving Repr, DecidableEq

/-- The embedded Qdrant database state at its interface boundary. -/
abbrev Store := List (String × QCol)

/-- `is_collection_existed`: delegates to `client.collection_exists`. -/
def is_collection_existed (s : Store) (n : String) : Bool :=
  s.any (fun c => c.1 == n)

/-- `delete_collection`: deletes only if the collection exists. -/
def delete_collection (s : Store) (n : String) : Store :=
  if is_collection_existed s n then s.filter (fun c => c.1 != n) else s

/-- `create_collection`: optional reset, then create (with the given vector
size) only if absent; returns whether a new collection was created. -/
def create_collection (s : Store) (n : String) (embedding_size : Nat)
    (do_reset : Bool) : Bool × Store :=
  let s1 := if do_reset then delete_collection s n else s
  if !(is_collection_existed s1 n) then (true, (n, ⟨embedding_size, []⟩) :: s1)
  else (false, s1)

/-- A Python call of `QdrantDBProvider.create_collection`.  `embedding_size`
is a required positional parameter; a call omitting it raises `TypeError`
before the method body runs. -/
def create_collection_call (s : Store) (n : String) (embedding_size : Option Nat)
    (do_reset : Bool) : Except PyError (Bool × Store) :=
  match embedding_size with
  | none => Except.error PyError.typeError
  | some sz => Except.ok (create_collection s n sz do_reset)

/-- Contents of the named collection, if it exists. -/
def getCol (s : Store) (n : String) : Option QCol :=
  (s.find? (fun c => c.1 == n)).map (fun c => c.2)

/-- `insert_one`: existence guard (log + `False` when missing), then one
`upload_records` call with a singleton record inside `try`. -/
def insert_one (collection_exists : Bool) (upload : List QRec → Bool)
    (text : String) (vector : List Int)
    (metadata : Option Md) (record_id : QId) : InsertTrace (List QRec) :=
  if !collection_exists then ⟨false, []⟩
  else
    let recs := [QRec.mk record_id vector text metadata]
    ⟨upload recs, [recs]⟩

/-- The `models.Record` list comprehension over `range(len(batch_texts))`:
indexing a shorter companion list raises `IndexError` (the comprehension runs
outside the `try`, so that error propagates). -/
def buildRecords : List String → List (List Int) → List (Option Md) → List QId →
    Except PyError (List QRec)
  | [], _, _, _ => Except.ok []
  | t :: ts, vs, ms, rs =>
    match vs, ms, rs with
    | v :: vs, m :: ms, r :: rs =>
      (buildRecords ts vs ms rs).map (fun l => QRec.mk r v t m :: l)
    | _, _, _ => Except.error PyError.indexError

/-- The batch loop of `insert_many`: slices all four lists, builds the batch's
records (outside `try`), then calls `upload_records` inside `try`; an
exception there is logged and aborts with `False`.  A `batch_size` of zero
makes `range` raise `ValueError`, uncaught here. -/
def qdrantLoop (upload : List QRec → Bool) (b : Nat) (txts : List String)
    (vecs : List (List Int)) (mds : List (Option Md)) (rids : List QId) :
    Except PyError (InsertTrace (List QRec)) :=
  if hb : b = 0 then Except.error PyError.valueError
  else if ht : txts.isEmpty then Except.ok ⟨true, []⟩
  else
    match buildRecords (txts.take b) (vecs.take b) (mds.take b) (rids.take b) with
    | Except.error e => Except.error e
    | Except.ok recs =>
      if upload recs then
        match qdrantLoop upload b (txts.drop b) (vecs.drop b) (mds.drop b) (rids.drop b) with
        | Except.error e => Except.error e
        | Except.ok t => Except.ok ⟨t.ret, recs :: t.calls⟩
      else Except.ok ⟨false, [recs]⟩
termination_by txts.length
decreasing_by
  simp only [List.length_drop]
  rcases txts with _ | ⟨x, xs⟩
  · simp at ht
  · simp only [List.length_cons]; omega

/-- `insert_many`: defaults (`[None] * len(texts)` metadata, integer range
ids), then the batch loop.  There is no collection-existence guard here: a
missing collection only surfaces when the backend rejects an upload. -/
def insert_many (upload : List QRec → Bool)
    (texts : List String) (vectors : List (List Int))
    (metadata : Option (List (Option Md))) (record_ids : Option (List QId))
    (batch_size : Nat) : Except PyError (InsertTrace (List QRec)) :=
  let md := metadata.getD (List.replicate texts.length none)
  let rids := record_ids.getD ((List.range texts.length).map QId.intId)
  qdrantLoop upload batch_size texts vectors md rids

/-- One scored point returned by the external `client.search` call; the
records written by this provider always carry a `"text"` payload key. -/
structure Scored where
  score : Int
  text : String
deriving Repr, DecidableEq

/-- `search_by_vector`: no `try/except` anywhere in the method — the outcome
of the backend `client.search` call (supplied by the environment) flows
straight through, so a backend exception propagates to the caller; an empty
hit list is normalized to `None`. -/
def search_by_vector (search : Except PyError (List Scored)) :
    Except PyError (Option (List RetrievedDocument)) := do
  let results ← search
  if results.isEmpty then Except.ok none
  else Except.ok (some (results.map fun r => ⟨r.text, r.score⟩))

end QdrantDB

namespace DataProcess

/-- A loaded pandas DataFrame at this layer's boundary: the column names in
order, and each row as a total lookup `column name → rendered cell value`
(`f"{row[col]}"` renders every cell as a string).  For a freshly read CSV the
`iterrows` index is the positional row number. -/
structure DataFrame where
  columns : List String
  rows : List (String → String)

/-- The inner loop of `prepare_data_for_injection`:
`output_str += f"{col}: {row[col]},\n"` over `df.columns`. -/
def rowText (cols : List String) (row : String → String) : String :=
  cols.foldl (fun acc col => acc ++ (col ++ ": " ++ row col ++ ",\n")) ""

/-- The row loop of `prepare_data_for_injection`, carrying the running
`iterrows` index; builds (docs, metadatas, ids, embeddings) in step. -/
def prepLoop (embed : String → List Int) (cols : List String) (file_name : String) :
    Nat → List (String → String) →
    List String × List Md × List String × List (List Int)
  | _, [] => ([], [], [], [])
  | i, row :: rest =>
    let output_str := rowText cols row
    let t := prepLoop embed cols file_name (i + 1) rest
    (output_str :: t.1, (("source", file_name) :: ([] : Md)) :: t.2.1,
      ("id" ++ toString i) :: t.2.2.1, embed output_str :: t.2.2.2)

/-- `prepare_data_for_injection`: returns `(docs, metadatas, ids, embeddings)`
with one entry per row, embedding each row's serialized text. -/
def prepare_data_for_injection (embed : String → List Int) (df : DataFrame)
    (file_name : String) :
    List String × List Md × List String × List (List Int) :=
  prepLoop embed df.columns file_name 0 df.rows

/-- `os.path.basename` on a POSIX path: everything after the last slash. -/
def basenameList (cs : List Char) : List Char :=
  cs.foldl (fun acc c => if c = '/' then [] else acc ++ [c]) []

def basename (s : String) : String := ⟨basenameList s.toList⟩

/-- Splits a reversed character list at the first dot (i.e. the original
string's last dot): returns the (reversed) part after the dot and the
(reversed) part before it; `none` if there is no dot. -/
def splitDotRev : List Char → Option (List Char × List Char)
  | [] => none
  | c :: cs =>
    if c = '.' then some ([], cs)
    else (splitDotRev cs).map (fun p => (c :: p.1, p.2))

/-- `os.path.splitext` on a basename: splits at the last dot, except that a
dot inside the leading run of dots never starts an extension
(so `".csv"` has no extension). -/
def splitextList (cs : List Char) : List Char × List Char :=
  match splitDotRev cs.reverse with
  | none => (cs, [])
  | some (revExt, revStem) =>
    if revStem.all (fun c => c == '.') then (cs, [])
    else (revStem.reverse, '.' :: revExt.reverse)

def splitext (s : String) : String × String :=
  let p := splitextList s.toList
  (⟨p.1⟩, ⟨p.2⟩)

/-- `get_file_loader`: takes the path's basename, splits off the extension,
parses only `.csv` (returning the frame and the stem); any other extension is
logged as unsupported and yields `None`.  `parse_csv` is the external
`pd.read_csv`. -/
def get_file_loader (parse_csv : String → DataFrame) (dataset : String) :
    Option (DataFrame × String) :=
  let base := basename dataset
  let fe := splitext base
  if fe.2 == ".csv" then some (parse_csv dataset, fe.1) else none

end DataProcess

namespace LLMFactory

/-- Python truthiness of an optional credential: `None` and `""` are falsy. -/
def falsy : Option String → Bool
  | none => true
  | some s => s.isEmpty

/-- The settings fields `LLMProviderFactory.create` reads.  The numeric
defaults play no role in the branching and are omitted. -/
structure LLMSettings where
  OPENAI_API_KEY : Option String
  GROQ_API_KEY : Option String
  AZURE_OPENAI_API_KEY : Option String
  AZURE_OPENAI_ENDPOINT : Option String
  API_VERSION : Option String
deriving Repr, DecidableEq

/-- Modelled from the spec: the repository's provider classes
(`OpenAIProvider`, `GroqProvider`, module `stores/llm/providers`, not under
`src/`) are constructed synchronously and locally, with no network call and no
further validation at construction time (§4.2); construction just captures the
supplied credentials. -/
inductive LLMProvider where
  | openaiAzure (azure_api : Option String) (api_version : Option String)
      (azure_endpoint : Option String)
  | openaiDirect (api_key : Option String)
  | groq (api_key : Option String)
deriving Repr, DecidableEq

/-- Modelled from the spec: the repository's `LLMEnums` module (not under
`src/`) is a closed enumeration of backend identifiers; its two members carry
opaque, distinct string values. -/
def openaiEnum : String := "OPENAI"

/-- Modelled from the spec: see `openaiEnum`. -/
def groqEnum : String := "GROQ"

/-- `LLMProviderFactory.create`: dispatches on the identifier; the non-Azure
OpenAI branch and the Groq branch null-check their API key (log + `None`),
the Azure branch constructs directly, and an unrecognized identifier is
logged and yields `None`. -/
def create (azure : Bool) (config : LLMSettings) (provider : String) :
    Option LLMProvider :=
  if provider == openaiEnum then
    if azure then
      some (LLMProvider.openaiAzure config.AZURE_OPENAI_API_KEY
        config.API_VERSION config.AZURE_OPENAI_ENDPOINT)
    else if falsy config.OPENAI_API_KEY then none
    else some (LLMProvider.openaiDirect config.OPENAI_API_KEY)
  else if provider == groqEnum then
    if falsy config.GROQ_API_KEY then none
    else some (LLMProvider.groq config.GROQ_API_KEY)
  else none

end LLMFactory

namespace ChromaDB

/-- The records an accepted `collection.add(documents, metadatas, ids,
embeddings)` call stores: the four argument lists aligned per index. -/
def CPayload.records (p : CPayload) : List CRec :=
  ((p.documents.zip p.metadatas).zip (p.ids.zip p.embeddings)).map
    (fun x => ⟨x.1.1, x.1.2, x.2.1, x.2.2⟩)

/-- Replace the contents of the named collection. -/
def updateCol (s : Store) (n : String) (f : List CRec → List CRec) : Store :=
  s.map (fun p => if p.1 == n then (p.1, f p.2) else p)

/-- Appending one accepted add call to a collection's contents. -/
def applyPayload (coll : List CRec) (p : CPayload) : List CRec :=
  coll ++ p.records

/-- `insert_many` run against the embedded local Chroma backend on its happy
path: every `collection.add` on an existing collection is accepted (the
external client raises nothing here), and each accepted call appends its
records to the named collection. -/
def run_insert_many (s : Store) (n : String)
    (texts : List String) (vectors : List (List Int))
    (metadata : Option (List Md)) (record_ids : Option (List String))
    (batch_size : Nat) : Bool × Store :=
  let ex := is_collection_existed s n
  let t := insert_many ex (fun _ => true) texts vectors metadata record_ids batch_size
  (t.ret, if ex then updateCol s n (fun c => t.calls.foldl applyPayload c) else s)

end ChromaDB

namespace QdrantDB

/-- The four aligned argument lists of `insert_many` zipped into records
(the list-comprehension build, when no index is out of range). -/
def zipRecords : List String → List (List Int) → List (Option Md) → List QId →
    List QRec
  | t :: ts, v :: vs, m :: ms, r :: rs => QRec.mk r v t m :: zipRecords ts vs ms rs
  | _, _, _, _ => []

/-- `get_collection_info`: delegates to `client.get_collection`, which raises
for a missing collection (no `try` in the source method). -/
def get_collection_info (s : Store) (n : String) : Except PyError (String × Nat) :=
  match getCol s n with
  | some c => Except.ok (n, c.recs.length)
  | none => Except.error PyError.valueError

end QdrantDB

namespace RAG

open DataProcess

/-- The `try` body of `RAGController.search_vector_db_collection`: embed the
query (`embed` is the external embedding client, which may raise), the
falsy-vector guard, then the provider search (whose outcome, including a
propagated provider exception, is supplied by `searchFn`), then the
`if not results` normalization. -/
def searchVectorBody (embed : String → Except PyError (List Int))
    (searchFn : List Int → Nat → Except PyError (Option (List RetrievedDocument)))
    (text : String) (limit : Nat) : Except PyError (List RetrievedDocument) := do
  let vector ← embed text
  if vector.isEmpty then
    Except.ok []
  else
    let results ← searchFn vector limit
    match results with
    | none => Except.ok []
    | some l => if l.isEmpty then Except.ok [] else Except.ok l

/-- `search_vector_db_collection`: the whole body is inside `try`; any
exception is logged and becomes an empty list. -/
def search_vector_db_collection (embed : String → Except PyError (List Int))
    (searchFn : List Int → Nat → Except PyError (Option (List RetrievedDocument)))
    (text : String) (limit : Nat) : List RetrievedDocument :=
  match searchVectorBody embed searchFn text limit with
  | Except.ok r => r
  | Except.error _ => []

/-- `RAGController.index_into_vector_db` with `em=True` against the Chroma
backend, taking the already-loaded dataset (`df`, `file_name`) in place of the
external CSV read: prepare, `create_collection(do_reset=True)`, `insert_many`
with the prepared ids/metadata at the default batch size 50, then
`get_collection_info`.  On this embedded happy path the broad `except` that
would return `None` is never triggered. -/
def index_into_vector_db_chroma (embed : String → List Int) (df : DataFrame)
    (file_name coll : String) (s : ChromaDB.Store) :
    Option (String × Nat) × ChromaDB.Store :=
  let p := prepare_data_for_injection embed df file_name
  let c := ChromaDB.create_collection s coll true
  let ins := ChromaDB.run_insert_many c.2 coll p.1 p.2.2.2 (some p.2.1)
    (some p.2.2.1) 50
  (ChromaDB.get_collection_info ins.2 coll, ins.2)

/-- The `try` body of `index_into_vector_db` (`em=True`) against the Qdrant
backend: prepare, then `create_collection(collection_name=..., do_reset=True)`
— the source passes no `embedding_size`, so the call is modelled with
`none` for that required positional argument. -/
def indexQdrantBody (embed : String → List Int) (df : DataFrame)
    (file_name coll : String) (s : QdrantDB.Store) :
    Except PyError ((String × Nat) × QdrantDB.Store) := do
  let p := prepare_data_for_injection embed df file_name
  let c ← QdrantDB.create_collection_call s coll none true
  let ex := QdrantDB.is_collection_existed c.2 coll
  let t ← QdrantDB.insert_many (fun _ => ex) p.1 p.2.2.2
    (some (p.2.1.map some)) (some (p.2.2.1.map QdrantDB.QId.strId)) 50
  let info ← QdrantDB.get_collection_info c.2 coll
  Except.ok (info, c.2)

/-- `index_into_vector_db` (`em=True`) against the Qdrant backend: the broad
`except` logs the exception and returns `None`, leaving the store as it was. -/
def index_into_vector_db_qdrant (embed : String → List Int) (df : DataFrame)
    (file_name coll : String) (s : QdrantDB.Store) :
    Option (String × Nat) × QdrantDB.Store :=
  match indexQdrantBody embed df file_name coll s with
  | Except.ok r => (some r.1, r.2)
  | Except.error _ => (none, s)

end RAG

namespace ChromaDB

theorem getCol_cons_self (s : Store) (n : String) (c : List CRec) :
    getCol ((n, c) :: s) n = some c := by
  simp [getCol, List.find?]

theorem getCol_cons_ne (s : Store) (n m : String) (c : List CRec) (h : m ≠ n) :
    getCol ((n, c) :: s) m = getCol s m := by
  simp only [getCol, List.find?]
  have : (n == m) = false := by
    simp only [beq_eq_false_iff_ne]; exact fun hnm => h hnm.symm
  simp [this]

theorem getCol_filter_ne (s : Store) (n m : String) (h : m ≠ n) :
    getCol (s.filter (fun c => c.1 != n)) m = getCol s m := by
  induction s with
  | nil => rfl
  | cons p s ih =>
    by_cases hp : p.1 = n
    · have h1 : (p.1 != n) = false := by simp [hp]
      have h2 : (p.1 == m) = false := by
        simp only [beq_eq_false_iff_ne]
        rw [hp]
        exact fun hnm => h hnm.symm
      simp only [getCol, List.filter, h1] at *
      rw [show ((p :: s).find? fun c => c.1 == m) = s.find? fun c => c.1 == m by
        simp [List.find?, h2]]
      exact ih
    · have h1 : (p.1 != n) = true := by simp [hp]
      simp only [getCol, List.filter, h1] at *
      by_cases hm : p.1 = m
      · simp [List.find?, hm]
      · have h2 : (p.1 == m) = false := by simp [hm]
        simp only [List.find?, h2]
        exact ih

theorem existed_filter_self (s : Store) (n : String) :
    is_collection_existed (s.filter (fun c => c.1 != n)) n = false := by
  induction s with
  | nil => rfl
  | cons p s ih =>
    by_cases hp : p.1 = n
    · simpa [List.filter, hp] using ih
    · have h1 : (p.1 != n) = true := by simp [hp]
      have h2 : (p.1 == n) = false := by simp [hp]
      simpa [is_collection_existed, List.filter, h1, List.any, h2,
        is_collection_existed] using ih

theorem existed_delete_self (s : Store) (n : String) :
    is_collection_existed (delete_collection s n) n = false := by
  unfold delete_collection
  by_cases h : is_collection_existed s n
  · simp [h, existed_filter_self]
  · simp only [h]
    simpa using h

theorem getCol_delete_ne (s : Store) (n m : String) (h : m ≠ n) :
    getCol (delete_collection s n) m = getCol s m := by
  unfold delete_collection
  by_cases hex : is_collection_existed s n
  · simp [hex, getCol_filter_ne s n m h]
  · simp [hex]

end ChromaDB

/-- C1 helper: the Chroma `create_collection` cases. -/
theorem chroma_create_cases (s : ChromaDB.Store) (n : String) :
    ((ChromaDB.create_collection s n true).1 = true ∧
      ChromaDB.getCol (ChromaDB.create_collection s n true).2 n = some [] ∧
      ∀ m, m ≠ n → ChromaDB.getCol (ChromaDB.create_collection s n true).2 m
        = ChromaDB.getCol s m) ∧
    (ChromaDB.is_collection_existed s n = true →
      ChromaDB.create_collection s n false = (false, s)) ∧
    (ChromaDB.is_collection_existed s n = false →
      (ChromaDB.create_collection s n false).1 = true ∧
      ChromaDB.getCol (ChromaDB.create_collection s n false).2 n = some [] ∧
      ∀ m, m ≠ n → ChromaDB.getCol (ChromaDB.create_collection s n false).2 m
        = ChromaDB.getCol s m) := by
  refine ⟨?_, ?_, ?_⟩
  · have hex := ChromaDB.existed_delete_self s n
    refine ⟨by simp [ChromaDB.create_collection, hex], ?_, ?_⟩
    · simp [ChromaDB.create_collection, hex, ChromaDB.getCol_cons_self]
    · intro m hm
      have h1 := ChromaDB.getCol_cons_ne (ChromaDB.delete_collection s n) n m [] hm
      have h2 := ChromaDB.getCol_delete_ne s n m hm
      simp [ChromaDB.create_collection, hex, h1, h2]
  · intro hex
    simp [ChromaDB.create_collection, hex]
  · intro hex
    refine ⟨by simp [ChromaDB.create_collection, hex], ?_, ?_⟩
    · simp [ChromaDB.create_collection, hex, ChromaDB.getCol_cons_self]
    · intro m hm
      have h1 := ChromaDB.getCol_cons_ne s n m [] hm
      simp [ChromaDB.create_collection, hex, h1]

namespace QdrantDB

theorem q_getCol_cons_self (s : Store) (n : String) (c : QCol) :
    getCol ((n, c) :: s) n = some c := by
  simp [getCol, List.find?]

theorem q_getCol_cons_ne (s : Store) (n m : String) (c : QCol) (h : m ≠ n) :
    getCol ((n, c) :: s) m = getCol s m := by
  simp only [getCol, List.find?]
  have : (n == m) = false := by
    simp only [beq_eq_false_iff_ne]; exact fun hnm => h hnm.symm
  simp [this]

theorem q_getCol_filter_ne (s : Store) (n m : String) (h : m ≠ n) :
    getCol (s.filter (fun c => c.1 != n)) m = getCol s m := by
  induction s with
  | nil => rfl
  | cons p s ih =>
    by_cases hp : p.1 = n
    · have h1 : (p.1 != n) = false := by simp [hp]
      have h2 : (p.1 == m) = false := by
        simp only [beq_eq_false_iff_ne]
        rw [hp]
        exact fun hnm => h hnm.symm
      simp only [getCol, List.filter, h1] at *
      rw [show ((p :: s).find? fun c => c.1 == m) = s.find? fun c => c.1 == m by
        simp [List.find?, h2]]
      exact ih
    · have h1 : (p.1 != n) = true := by simp [hp]
      simp only [getCol, List.filter, h1] at *
      by_cases hm : p.1 = m
      · simp [List.find?, hm]
      · have h2 : (p.1 == m) = false := by simp [hm]
        simp only [List.find?, h2]
        exact ih

theorem q_existed_filter_self (s : Store) (n : String) :
    is_collection_existed (s.filter (fun c => c.1 != n)) n = false := by
  induction s with
  | nil => rfl
  | cons p s ih =>
    by_cases hp : p.1 = n
    · simpa [List.filter, hp] using ih
    · have h1 : (p.1 != n) = true := by simp [hp]
      have h2 : (p.1 == n) = false := by simp [hp]
      simpa [is_collection_existed, List.filter, h1, List.any, h2,
        is_collection_existed] using ih

theorem q_existed_delete_self (s : Store) (n : String) :
    is_collection_existed (delete_collection s n) n = false := by
  unfold delete_collection
  by_cases h : is_collection_existed s n
  · simp [h, q_existed_filter_self]
  · simp only [h]
    simpa using h

theorem q_getCol_delete_ne (s : Store) (n m : String) (h : m ≠ n) :
    getCol (delete_collection s n) m = getCol s m := by
  unfold delete_collection
  by_cases hex : is_collection_existed s n
  · simp [hex, q_getCol_filter_ne s n m h]
  · simp [hex]

end QdrantDB

/-- C1 helper: the Qdrant `create_collection` cases. -/
theorem qdrant_create_cases (s : QdrantDB.Store) (n : String) (sz : Nat) :
    ((QdrantDB.create_collection s n sz true).1 = true ∧
      QdrantDB.getCol (QdrantDB.create_collection s n sz true).2 n = some ⟨sz, []⟩ ∧
      ∀ m, m ≠ n → QdrantDB.getCol (QdrantDB.create_collection s n sz true).2 m
        = QdrantDB.getCol s m) ∧
    (QdrantDB.is_collection_existed s n = true →
      QdrantDB.create_collection s n sz false = (false, s)) ∧
    (QdrantDB.is_collection_existed s n = false →
      (QdrantDB.create_collection s n sz false).1 = true ∧
      QdrantDB.getCol (QdrantDB.create_collection s n sz false).2 n = some ⟨sz, []⟩ ∧
      ∀ m, m ≠ n → QdrantDB.getCol (QdrantDB.create_collection s n sz false).2 m
        = QdrantDB.getCol s m) := by
  refine ⟨?_, ?_, ?_⟩
  · have hex := QdrantDB.q_existed_delete_self s n
    refine ⟨by simp [QdrantDB.create_collection, hex], ?_, ?_⟩
    · simp [QdrantDB.create_collection, hex, QdrantDB.q_getCol_cons_self]
    · intro m hm
      have h1 := QdrantDB.q_getCol_cons_ne (QdrantDB.delete_collection s n) n m ⟨sz, []⟩ hm
      have h2 := QdrantDB.q_getCol_delete_ne s n m hm
      simp [QdrantDB.create_collection, hex, h1, h2]
  · intro hex
    simp [QdrantDB.create_collection, hex]
  · intro hex
    refine ⟨by simp [QdrantDB.create_collection, hex], ?_, ?_⟩
    · simp [QdrantDB.create_collection, hex, QdrantDB.q_getCol_cons_self]
    · intro m hm
      have h1 := QdrantDB.q_getCol_cons_ne s n m ⟨sz, []⟩ hm
      simp [QdrantDB.create_collection, hex, h1]

/-- C1: On either vector-store variant, `create_collection(n, do_reset=true)`
first deletes any existing collection named `n` and then creates a fresh
(empty) one, returning `true` since a new collection was actually created,
while leaving every other collection untouched; `create_collection(n,
do_reset=false)` when `n` already exists creates nothing and returns `false`
(and when `n` is absent creates it and returns `true`). -/
theorem C1_create_collection_reset_semantics (s : ChromaDB.Store)
    (q : QdrantDB.Store) (n : String) (sz : Nat) :
    (((ChromaDB.create_collection s n true).1 = true ∧
      ChromaDB.getCol (ChromaDB.create_collection s n true).2 n = some [] ∧
      ∀ m, m ≠ n → ChromaDB.getCol (ChromaDB.create_collection s n true).2 m
        = ChromaDB.getCol s m) ∧
    (ChromaDB.is_collection_existed s n = true →
      ChromaDB.create_collection s n false = (false, s)) ∧
    (ChromaDB.is_collection_existed s n = false →
      (ChromaDB.create_collection s n false).1 = true ∧
      ChromaDB.getCol (ChromaDB.create_collection s n false).2 n = some [] ∧
      ∀ m, m ≠ n → ChromaDB.getCol (ChromaDB.create_collection s n false).2 m
        = ChromaDB.getCol s m)) ∧
    (((QdrantDB.create_collection q n sz true).1 = true ∧
      QdrantDB.getCol (QdrantDB.create_collection q n sz true).2 n = some ⟨sz, []⟩ ∧
      ∀ m, m ≠ n → QdrantDB.getCol (QdrantDB.create_collection q n sz true).2 m
        = QdrantDB.getCol q m) ∧
    (QdrantDB.is_collection_existed q n = true →
      QdrantDB.create_collection q n sz false = (false, q)) ∧
    (QdrantDB.is_collection_existed q n = false →
      (QdrantDB.create_collection q n sz false).1 = true ∧
      QdrantDB.getCol (QdrantDB.create_collection q n sz false).2 n = some ⟨sz, []⟩ ∧
      ∀ m, m ≠ n → QdrantDB.getCol (QdrantDB.create_collection q n sz false).2 m
        = QdrantDB.getCol q m)) :=
  ⟨chroma_create_cases s n, qdrant_create_cases q n sz⟩

/-- C1 witness: the reset path on a store already holding documents under the
target name, and the `do_reset=false` path on the same store. -/
theorem C1_create_collection_reset_semantics_witness :
    (ChromaDB.is_collection_existed [("cars", [ChromaDB.CRec.mk "d" [] "id0" [1]])] "cars"
      = true ∧
    ChromaDB.create_collection [("cars", [ChromaDB.CRec.mk "d" [] "id0" [1]])] "cars" false
      = (false, [("cars", [ChromaDB.CRec.mk "d" [] "id0" [1]])]) ∧
    ChromaDB.getCol
      (ChromaDB.create_collection [("cars", [ChromaDB.CRec.mk "d" [] "id0" [1]])] "cars" true).2
      "cars" = some []) := by
  have h := C1_create_collection_reset_semantics
    [("cars", [ChromaDB.CRec.mk "d" [] "id0" [1]])] [] "cars" 4
  refine ⟨by decide, h.1.2.1 (by decide), h.1.1.2.1⟩

/-- C2 counterexample: on the Qdrant variant there is no `try/except` around
the backend call in `search_by_vector`, so a backend exception propagates to
the caller instead of being caught and logged — the claim's "never raises an
exception to its caller ... on either vector-store variant" is false. -/
theorem C2_counterexample :
    QdrantDB.search_by_vector (Except.error PyError.backendError)
      = Except.error PyError.backendError := rfl

/-- C2 (amended): ChromaDBProvider.search_by_vector never raises — zero
matches yield `None` and any exception (missing collection or backend error)
is caught and logged, yielding `None`; QdrantDBProvider.search_by_vector
normalizes zero matches to `None` but propagates a backend exception
unhandled to its caller. -/
theorem C2_search_error_handling_amended
    (ok : Bool) (q : Except PyError ChromaDB.QueryResult) (e : PyError)
    (r : ChromaDB.QueryResult) (s : List QdrantDB.Scored) :
    (q = Except.error e → ChromaDB.search_by_vector ok q = none) ∧
    (ChromaDB.search_by_vector false q = none) ∧
    (q = Except.ok r → r.ids = [] → ChromaDB.search_by_vector ok q = none) ∧
    (∀ rest, q = Except.ok r → r.ids = [] :: rest →
      ChromaDB.search_by_vector ok q = none) ∧
    (QdrantDB.search_by_vector (Except.ok []) = Except.ok none) ∧
    (s ≠ [] → QdrantDB.search_by_vector (Except.ok s)
      = Except.ok (some (s.map fun x => ⟨x.text, x.score⟩))) ∧
    (QdrantDB.search_by_vector (Except.error e) = Except.error e) := by
  refine ⟨?_, ?_, ?_, ?_, ?_, ?_, ?_⟩
  · intro hq
    subst hq
    cases ok <;> rfl
  · rfl
  · intro hq hids
    subst hq
    cases ok
    · rfl
    · simp [ChromaDB.search_by_vector, ChromaDB.searchBody, hids,
        Bind.bind, Except.bind]
  · intro rest hq hids
    subst hq
    cases ok
    · rfl
    · simp [ChromaDB.search_by_vector, ChromaDB.searchBody, hids,
        Bind.bind, Except.bind]
  · rfl
  · intro hs
    simp [QdrantDB.search_by_vector, hs, Bind.bind, Except.bind]
  · rfl

/-- C2 witness: a concrete caught missing-collection search, a concrete
zero-match search, and a concrete nonempty Qdrant search. -/
theorem C2_search_error_handling_amended_witness :
    ChromaDB.search_by_vector true (Except.ok ⟨[], [], []⟩) = none ∧
    QdrantDB.search_by_vector (Except.ok [⟨5, "t"⟩])
      = Except.ok (some [⟨"t", 5⟩]) := by
  have h := C2_search_error_handling_amended true (Except.ok ⟨[], [], []⟩)
    PyError.backendError ⟨[], [], []⟩ [⟨5, "t"⟩]
  exact ⟨h.2.2.1 rfl rfl, h.2.2.2.2.2.1 (by decide)⟩

/-- C10: when the configured backend is Qdrant, `index_into_vector_db` in
re-embed mode always returns `None` and never creates the target collection:
the orchestrator calls `create_collection` without the `embedding_size`
argument that `QdrantDBProvider.create_collection` requires, so the call
raises `TypeError`, which the broad `except` converts into a `None` return,
leaving the store untouched. -/
theorem C10_qdrant_reindex_type_error (embed : String → List Int)
    (df : DataProcess.DataFrame) (file_name coll : String) (s : QdrantDB.Store) :
    RAG.index_into_vector_db_qdrant embed df file_name coll s = (none, s) ∧
    QdrantDB.create_collection_call s coll none true
      = Except.error PyError.typeError := by
  constructor
  · simp [RAG.index_into_vector_db_qdrant, RAG.indexQdrantBody,
      QdrantDB.create_collection_call, Bind.bind, Except.bind]
  · rfl

/-- C6: the retrieval search never raises: an embedding failure is caught and
yields `[]`; an empty/falsy embedding short-circuits to `[]` for every
possible vector-store behaviour (the store is never consulted); a `None` or
empty store result is normalized to `[]`; a nonempty result is returned
as-is; and a store exception is caught and yields `[]`. -/
theorem C6_retrieval_search_never_raises
    (embed : String → Except PyError (List Int))
    (searchFn : List Int → Nat → Except PyError (Option (List RetrievedDocument)))
    (text : String) (limit : Nat) (e : PyError) (v : List Int)
    (l : List RetrievedDocument) :
    (embed text = Except.error e →
      RAG.search_vector_db_collection embed searchFn text limit = []) ∧
    (embed text = Except.ok [] →
      ∀ g, RAG.search_vector_db_collection embed g text limit = []) ∧
    (embed text = Except.ok v → v ≠ [] → searchFn v limit = Except.ok none →
      RAG.search_vector_db_collection embed searchFn text limit = []) ∧
    (embed text = Except.ok v → v ≠ [] → searchFn v limit = Except.ok (some l) →
      RAG.search_vector_db_collection embed searchFn text limit = l) ∧
    (embed text = Except.ok v → v ≠ [] → searchFn v limit = Except.error e →
      RAG.search_vector_db_collection embed searchFn text limit = []) := by
  refine ⟨?_, ?_, ?_, ?_, ?_⟩
  · intro he
    simp [RAG.search_vector_db_collection, RAG.searchVectorBody, he,
      Bind.bind, Except.bind]
  · intro he g
    simp [RAG.search_vector_db_collection, RAG.searchVectorBody, he,
      Bind.bind, Except.bind]
  · intro he hv hs
    simp [RAG.search_vector_db_collection, RAG.searchVectorBody, he, hv, hs,
      Bind.bind, Except.bind]
  · intro he hv hs
    rcases l with _ | ⟨x, xs⟩
    · simp [RAG.search_vector_db_collection, RAG.searchVectorBody, he, hv, hs,
        Bind.bind, Except.bind]
    · simp [RAG.search_vector_db_collection, RAG.searchVectorBody, he, hv, hs,
        Bind.bind, Except.bind]
  · intro he hv hs
    simp [RAG.search_vector_db_collection, RAG.searchVectorBody, he, hv, hs,
      Bind.bind, Except.bind]

/-- C6 witness: a query whose embedding is empty returns `[]` regardless of
the vector store, and a failing store is converted to `[]`. -/
theorem C6_retrieval_search_never_raises_witness :
    RAG.search_vector_db_collection (fun _ => Except.ok [])
      (fun _ _ => Except.error PyError.backendError) "" 3 = [] ∧
    RAG.search_vector_db_collection (fun _ => Except.ok [7])
      (fun _ _ => Except.error PyError.backendError) "suv" 3 = [] := by
  constructor
  · exact (C6_retrieval_search_never_raises (fun _ => Except.ok [])
      (fun _ _ => Except.error PyError.backendError) "" 3 PyError.backendError
      [] []).2.1 rfl _
  · exact (C6_retrieval_search_never_raises (fun _ => Except.ok [7])
      (fun _ _ => Except.error PyError.backendError) "suv" 3 PyError.backendError
      [7] []).2.2.2.2 rfl (by decide) rfl

/-- C9 counterexample: with `azure=True`, `LLMProviderFactory.create` builds
and returns an OpenAI provider even though every Azure credential is missing
(`None`) — no validation, no null return, no log — so the claim that a
missing required credential always yields a null return is false. -/
theorem C9_counterexample :
    LLMFactory.create true
      (LLMFactory.LLMSettings.mk none none none none none) LLMFactory.openaiEnum
      = some (LLMFactory.LLMProvider.openaiAzure none none none) ∧
    (LLMFactory.LLMSettings.mk none none none none none).AZURE_OPENAI_API_KEY
      = none := ⟨rfl, rfl⟩

/-- C9 (amended): `LLMProviderFactory.create` never raises; it returns null
with a logged warning/error when the identifier is outside the supported
enumeration, and on the non-Azure OpenAI path and the Groq path it validates
the required API key, returning null when it is missing/falsy and a provider
otherwise; the Azure OpenAI path performs no credential validation and
returns a provider regardless of the Azure credentials. -/
theorem C9_factory_validation_amended (azure : Bool)
    (config : LLMFactory.LLMSettings) (provider : String) :
    (provider ≠ LLMFactory.openaiEnum → provider ≠ LLMFactory.groqEnum →
      LLMFactory.create azure config provider = none) ∧
    (LLMFactory.falsy config.OPENAI_API_KEY = true →
      LLMFactory.create false config LLMFactory.openaiEnum = none) ∧
    (LLMFactory.falsy config.OPENAI_API_KEY = false →
      LLMFactory.create false config LLMFactory.openaiEnum
        = some (LLMFactory.LLMProvider.openaiDirect config.OPENAI_API_KEY)) ∧
    (LLMFactory.falsy config.GROQ_API_KEY = true →
      LLMFactory.create azure config LLMFactory.groqEnum = none) ∧
    (LLMFactory.falsy config.GROQ_API_KEY = false →
      LLMFactory.create azure config LLMFactory.groqEnum
        = some (LLMFactory.LLMProvider.groq config.GROQ_API_KEY)) ∧
    (LLMFactory.create true config LLMFactory.openaiEnum
      = some (LLMFactory.LLMProvider.openaiAzure config.AZURE_OPENAI_API_KEY
          config.API_VERSION config.AZURE_OPENAI_ENDPOINT)) := by
  refine ⟨?_, ?_, ?_, ?_, ?_, ?_⟩
  · intro h1 h2
    simp [LLMFactory.create, h1, h2]
  · intro h
    simp [LLMFactory.create, h]
  · intro h
    simp [LLMFactory.create, h]
  · intro h
    simp [LLMFactory.create, LLMFactory.openaiEnum, LLMFactory.groqEnum, h]
  · intro h
    simp [LLMFactory.create, LLMFactory.openaiEnum, LLMFactory.groqEnum, h]
  · simp [LLMFactory.create]

/-- C9 witness: a missing direct OpenAI key yields null, a present Groq key
yields a provider, and an unrecognized identifier yields null. -/
theorem C9_factory_validation_amended_witness :
    LLMFactory.create false
      (LLMFactory.LLMSettings.mk none (some "gsk_1") none none none)
      LLMFactory.openaiEnum = none ∧
    LLMFactory.create false
      (LLMFactory.LLMSettings.mk none (some "gsk_1") none none none)
      LLMFactory.groqEnum
      = some (LLMFactory.LLMProvider.groq (some "gsk_1")) ∧
    LLMFactory.create false
      (LLMFactory.LLMSettings.mk none (some "gsk_1") none none none)
      "COHERE" = none := by
  have h := C9_factory_validation_amended false
    (LLMFactory.LLMSettings.mk none (some "gsk_1") none none none) "COHERE"
  exact ⟨h.2.1 rfl, h.2.2.2.2.1 rfl, h.1 (by decide) (by decide)⟩

theorem str_append_assoc (a b c : String) : a ++ b ++ c = a ++ (b ++ c) := by
  rcases a with ⟨da⟩
  rcases b with ⟨db⟩
  rcases c with ⟨dc⟩
  show String.mk (da ++ db ++ dc) = String.mk (da ++ (db ++ dc))
  rw [List.append_assoc]

theorem str_append_empty (s : String) : s ++ "" = s := by
  rcases s with ⟨d⟩
  show String.mk (d ++ []) = String.mk d
  rw [List.append_nil]

namespace DataProcess

/-- The claim's reading of the row serialization: the concatenation, in
column order, of `"col: value,\n"` for every column. -/
def colsConcat (row : String → String) : List String → String
  | [] => ""
  | c :: cs => (c ++ ": " ++ row c ++ ",\n") ++ colsConcat row cs

theorem rowText_foldl (row : String → String) (cols : List String) :
    ∀ a : String,
      cols.foldl (fun acc col => acc ++ (col ++ ": " ++ row col ++ ",\n")) a
        = a ++ colsConcat row cols := by
  induction cols with
  | nil => intro a; simp [colsConcat, str_append_empty]
  | cons c cs ih =>
    intro a
    rw [List.foldl_cons, ih, colsConcat, str_append_assoc]

/-- The source's accumulating loop equals the spec-side concatenation. -/
theorem rowText_eq_colsConcat (cols : List String) (row : String → String) :
    rowText cols row = colsConcat row cols := by
  unfold rowText
  rw [rowText_foldl]
  rcases colsConcat row cols with ⟨d⟩
  show String.mk ([] ++ d) = String.mk d
  rw [List.nil_append]

theorem prepLoop_spec (embed : String → List Int) (cols : List String)
    (fn : String) :
    ∀ (rows : List (String → String)) (i : Nat),
      (prepLoop embed cols fn i rows).1 = rows.map (rowText cols) ∧
      (prepLoop embed cols fn i rows).2.1
        = rows.map (fun _ => [("source", fn)]) ∧
      (prepLoop embed cols fn i rows).2.2.1
        = (List.range rows.length).map (fun j => "id" ++ toString (i + j)) ∧
      (prepLoop embed cols fn i rows).2.2.2
        = rows.map (fun row => embed (rowText cols row)) := by
  intro rows
  induction rows with
  | nil => intro i; simp [prepLoop]
  | cons row rest ih =>
    intro i
    obtain ⟨h1, h2, h3, h4⟩ := ih (i + 1)
    refine ⟨?_, ?_, ?_, ?_⟩
    · simp [prepLoop, h1]
    · simp [prepLoop, h2]
    · simp only [prepLoop, h3, List.length_cons, List.range_succ_eq_map,
        List.map_cons, List.map_map]
      refine congrArg₂ List.cons (by simp) ?_
      apply List.map_congr_left
      intro j hj
      have hjj : i + 1 + j = i + (j + 1) := by omega
      simp [Function.comp, hjj]
    · simp [prepLoop, h4]

end DataProcess

/-- C5: `prepare_data_for_injection` returns four lists (documents,
metadatas, ids, embeddings), each as long as the table has rows; the document
for row `i` is the concatenation, in column order, of `"col: value,\n"` for
every column, its id is `"id" + i`, its metadata is `{"source": baseName}`,
and its embedding is the embedding of that document text. -/
theorem C5_prepare_data_shape (embed : String → List Int)
    (df : DataProcess.DataFrame) (file_name : String) :
    ((DataProcess.prepare_data_for_injection embed df file_name).1.length
        = df.rows.length ∧
      (DataProcess.prepare_data_for_injection embed df file_name).2.1.length
        = df.rows.length ∧
      (DataProcess.prepare_data_for_injection embed df file_name).2.2.1.length
        = df.rows.length ∧
      (DataProcess.prepare_data_for_injection embed df file_name).2.2.2.length
        = df.rows.length) ∧
    ∀ (i : Nat) (row : String → String), df.rows[i]? = some row →
      (DataProcess.prepare_data_for_injection embed df file_name).1[i]?
          = some (DataProcess.colsConcat row df.columns) ∧
      (DataProcess.prepare_data_for_injection embed df file_name).2.1[i]?
          = some [("source", file_name)] ∧
      (DataProcess.prepare_data_for_injection embed df file_name).2.2.1[i]?
          = some ("id" ++ toString i) ∧
      (DataProcess.prepare_data_for_injection embed df file_name).2.2.2[i]?
          = some (embed (DataProcess.colsConcat row df.columns)) := by
  obtain ⟨h1, h2, h3, h4⟩ :=
    DataProcess.prepLoop_spec embed df.columns file_name df.rows 0
  unfold DataProcess.prepare_data_for_injection
  refine ⟨⟨by simp [h1], by simp [h2], by simp [h3], by simp [h4]⟩, ?_⟩
  intro i row hrow
  have hi : i < df.rows.length := by
    by_contra hge
    have hnone : df.rows[i]? = none := List.getElem?_eq_none (by omega)
    rw [hnone] at hrow
    exact Option.noConfusion hrow
  refine ⟨?_, ?_, ?_, ?_⟩
  · rw [h1, List.getElem?_map, hrow]
    simp [DataProcess.rowText_eq_colsConcat]
  · rw [h2, List.getElem?_map, hrow]
    simp
  · rw [h3, List.getElem?_map, List.getElem?_range hi]
    simp
  · rw [h4, List.getElem?_map, hrow]
    simp [DataProcess.rowText_eq_colsConcat]

/-- C5 witness: the spec's three-row scenario (`make`/`year` columns with
Toyota/Honda/Ford) evaluated concretely. -/
theorem C5_prepare_data_shape_witness :
    (DataProcess.prepare_data_for_injection (fun s => [Int.ofNat s.length])
        (DataProcess.DataFrame.mk ["make", "year"]
          [fun c => if c = "make" then "Toyota" else "2020",
           fun c => if c = "make" then "Honda" else "2019",
           fun c => if c = "make" then "Ford" else "2021"])
        "dataset").1[0]?
      = some "make: Toyota,\nyear: 2020,\n" ∧
    (DataProcess.prepare_data_for_injection (fun s => [Int.ofNat s.length])
        (DataProcess.DataFrame.mk ["make", "year"]
          [fun c => if c = "make" then "Toyota" else "2020",
           fun c => if c = "make" then "Honda" else "2019",
           fun c => if c = "make" then "Ford" else "2021"])
        "dataset").2.2.1[2]?
      = some "id2" ∧
    (DataProcess.prepare_data_for_injection (fun s => [Int.ofNat s.length])
        (DataProcess.DataFrame.mk ["make", "year"]
          [fun c => if c = "make" then "Toyota" else "2020",
           fun c => if c = "make" then "Honda" else "2019",
           fun c => if c = "make" then "Ford" else "2021"])
        "dataset").2.1[1]?
      = some [("source", "dataset")] := by
  have h0 := (C5_prepare_data_shape (fun s => [Int.ofNat s.length])
    (DataProcess.DataFrame.mk ["make", "year"]
      [fun c => if c = "make" then "Toyota" else "2020",
       fun c => if c = "make" then "Honda" else "2019",
       fun c => if c = "make" then "Ford" else "2021"])
    "dataset").2 0 (fun c => if c = "make" then "Toyota" else "2020") rfl
  have h2 := (C5_prepare_data_shape (fun s => [Int.ofNat s.length])
    (DataProcess.DataFrame.mk ["make", "year"]
      [fun c => if c = "make" then "Toyota" else "2020",
       fun c => if c = "make" then "Honda" else "2019",
       fun c => if c = "make" then "Ford" else "2021"])
    "dataset").2 2 (fun c => if c = "make" then "Ford" else "2021") rfl
  have h1 := (C5_prepare_data_shape (fun s => [Int.ofNat s.length])
    (DataProcess.DataFrame.mk ["make", "year"]
      [fun c => if c = "make" then "Toyota" else "2020",
       fun c => if c = "make" then "Honda" else "2019",
       fun c => if c = "make" then "Ford" else "2021"])
    "dataset").2 1 (fun c => if c = "make" then "Honda" else "2019") rfl
  refine ⟨?_, ?_, ?_⟩
  · rw [h0.1]; rfl
  · rw [h2.2.2.1]; rfl
  · rw [h1.2.1]

theorem str_toList_append (a b : String) : (a ++ b).toList = a.toList ++ b.toList := by
  rcases a with ⟨da⟩
  rcases b with ⟨db⟩
  rfl

theorem str_mk_toList (s : String) : String.mk s.toList = s := by
  rcases s with ⟨d⟩
  rfl

theorem str_toList_ne_nil (s : String) (h : s ≠ "") : s.toList ≠ [] := by
  rcases s with ⟨d⟩
  intro hd
  apply h
  cases hd
  rfl

namespace DataProcess

theorem basenameList_no_slash (cs : List Char) :
    ∀ acc, (∀ c ∈ cs, c ≠ '/') →
      cs.foldl (fun acc c => if c = '/' then [] else acc ++ [c]) acc = acc ++ cs := by
  induction cs with
  | nil => intro acc _; simp
  | cons c cs ih =>
    intro acc h
    have hm : c ≠ '/' := h c (by simp)
    rw [List.foldl_cons, if_neg hm, ih (acc ++ [c]) (fun x hx => h x (by simp [hx]))]
    simp

theorem basenameList_append (xs ys : List Char) (hy : ∀ c ∈ ys, c ≠ '/') :
    basenameList (xs ++ '/' :: ys) = ys := by
  unfold basenameList
  rw [List.foldl_append, List.foldl_cons, if_pos rfl]
  simpa using basenameList_no_slash ys [] hy

theorem splitDotRev_no_dot (l : List Char) (h : ∀ c ∈ l, c ≠ '.') :
    splitDotRev l = none := by
  induction l with
  | nil => rfl
  | cons c cs ih =>
    have hc : c ≠ '.' := h c (by simp)
    simp only [splitDotRev, if_neg hc, ih (fun x hx => h x (by simp [hx]))]
    rfl

theorem splitDotRev_append (l r : List Char) (h : ∀ c ∈ l, c ≠ '.') :
    splitDotRev (l ++ '.' :: r) = some (l, r) := by
  induction l with
  | nil => simp [splitDotRev]
  | cons c cs ih =>
    have hc : c ≠ '.' := h c (by simp)
    have hih := ih (fun x hx => h x (by simp [hx]))
    simp only [List.cons_append, splitDotRev, if_neg hc]
    rw [show cs.append ('.' :: r) = cs ++ '.' :: r from rfl, hih]
    rfl

theorem splitextList_no_dot (cs : List Char) (h : ∀ c ∈ cs, c ≠ '.') :
    splitextList cs = (cs, []) := by
  unfold splitextList
  rw [splitDotRev_no_dot cs.reverse (fun c hc => h c (List.mem_reverse.mp hc))]

theorem splitextList_split (stemL extL : List Char)
    (hstem : stemL ≠ []) (hs : ∀ c ∈ stemL, c ≠ '.')
    (he : ∀ c ∈ extL, c ≠ '.') :
    splitextList (stemL ++ '.' :: extL) = (stemL, '.' :: extL) := by
  unfold splitextList
  have hrev : (stemL ++ '.' :: extL).reverse = extL.reverse ++ '.' :: stemL.reverse := by
    simp [List.reverse_append]
  rw [hrev, splitDotRev_append extL.reverse stemL.reverse
    (fun c hc => he c (List.mem_reverse.mp hc))]
  have hall : (stemL.reverse.all fun c => c == '.') = false := by
    rcases stemL with _ | ⟨c, cs⟩
    · exact absurd rfl hstem
    · apply Bool.eq_false_iff.mpr
      intro hall
      rw [List.all_eq_true] at hall
      have hcm := hall c (List.mem_reverse.mpr (by simp))
      exact hs c (by simp) (by simpa using hcm)
  simp [hall]

end DataProcess

theorem DataProcess.get_file_loader_eq (parse : String → DataProcess.DataFrame)
    (p : String) :
    DataProcess.get_file_loader parse p
      = if (DataProcess.splitext (DataProcess.basename p)).2 == ".csv"
        then some (parse p, (DataProcess.splitext (DataProcess.basename p)).1)
        else none := rfl

theorem DataProcess.splitext_mk (l : List Char) :
    DataProcess.splitext (String.mk l)
      = (String.mk (DataProcess.splitextList l).1,
         String.mk (DataProcess.splitextList l).2) := rfl

/-- C8: for a dataset path `dir/stem.ext` (stem nonempty, no slash or dot in
stem or in the extension body), `get_file_loader` returns the parsed table
paired with the base name without its extension when the extension is
`.csv`, and logs an error and returns `None` (never raising) for every other
extension, including no extension at all. -/
theorem C8_get_file_loader_csv_gate (parse : String → DataProcess.DataFrame)
    (dir stem ext : String)
    (hs0 : stem ≠ "")
    (hs : ∀ c ∈ stem.toList, c ≠ '/' ∧ c ≠ '.')
    (he : ext = "" ∨
      ∃ e : String, ext = "." ++ e ∧ ∀ c ∈ e.toList, c ≠ '/' ∧ c ≠ '.') :
    DataProcess.get_file_loader parse (dir ++ "/" ++ stem ++ ext)
      = if ext = ".csv"
        then some (parse (dir ++ "/" ++ stem ++ ext), stem)
        else none := by
  have hpath : (dir ++ "/" ++ stem ++ ext).toList
      = dir.toList ++ '/' :: (stem.toList ++ ext.toList) := by
    rw [str_toList_append, str_toList_append, str_toList_append]
    show dir.toList ++ ['/'] ++ stem.toList ++ ext.toList = _
    simp [List.append_assoc]
  have hnoslash : ∀ c ∈ stem.toList ++ ext.toList, c ≠ '/' := by
    intro c hc
    rcases List.mem_append.mp hc with h | h
    · exact (hs c h).1
    · rcases he with he | ⟨e, hee, hech⟩
      · rw [he] at h
        simp at h
      · rw [hee, str_toList_append] at h
        rcases List.mem_cons.mp (by simpa using h) with h | h
        · simp [h]
        · exact (hech c h).1
  have hbase : DataProcess.basename (dir ++ "/" ++ stem ++ ext)
      = String.mk (stem.toList ++ ext.toList) := by
    unfold DataProcess.basename
    rw [hpath, DataProcess.basenameList_append _ _ hnoslash]
  rcases he with he | ⟨e, hee, hech⟩
  · subst he
    have hsplit : DataProcess.splitextList (stem.toList ++ "".toList)
        = (stem.toList ++ "".toList, []) := by
      apply DataProcess.splitextList_no_dot
      intro c hc
      rcases List.mem_append.mp hc with h | h
      · exact (hs c h).2
      · simp at h
    have hne : ("" : String) ≠ ".csv" := by decide
    rw [if_neg hne, DataProcess.get_file_loader_eq, hbase,
      DataProcess.splitext_mk, hsplit]
    have hb : (String.mk ([] : List Char) == ".csv") = false := by decide
    simp [hb]
  · subst hee
    have hsplit := DataProcess.splitextList_split stem.toList e.toList
      (str_toList_ne_nil stem hs0) (fun c hc => (hs c hc).2)
      (fun c hc => (hech c hc).2)
    have htl : ("." ++ e).toList = '.' :: e.toList := by
      rw [str_toList_append]
      rfl
    have hext : String.mk ('.' :: e.toList) = "." ++ e := by
      rw [show ('.' :: e.toList) = ("." ++ e).toList from htl.symm, str_mk_toList]
    rw [htl] at hbase
    rw [DataProcess.get_file_loader_eq, hbase, DataProcess.splitext_mk, hsplit,
      str_mk_toList, hext]
    by_cases hcsv : ("." ++ e : String) = ".csv"
    · rw [if_pos hcsv, hcsv]
      simp
    · rw [if_neg hcsv]
      simp [beq_eq_false_iff_ne.mpr hcsv]

/-- C8 witness: `database/csv/cars.csv` parses (stem `cars`), while
`database/csv/data.txt` is rejected with `None`. -/
theorem C8_get_file_loader_csv_gate_witness :
    DataProcess.get_file_loader (fun _ => DataProcess.DataFrame.mk [] [])
      "database/csv/cars.csv"
      = some (DataProcess.DataFrame.mk [] [], "cars") ∧
    DataProcess.get_file_loader (fun _ => DataProcess.DataFrame.mk [] [])
      "database/csv/data.txt" = none := by
  have h1 := C8_get_file_loader_csv_gate (fun _ => DataProcess.DataFrame.mk [] [])
    "database/csv" "cars" ".csv" (by decide)
    (by intro c hc; fin_cases hc <;> exact ⟨by decide, by decide⟩)
    (Or.inr ⟨"csv", rfl, by intro c hc; fin_cases hc <;> exact ⟨by decide, by decide⟩⟩)
  have h2 := C8_get_file_loader_csv_gate (fun _ => DataProcess.DataFrame.mk [] [])
    "database/csv" "data" ".txt" (by decide)
    (by intro c hc; fin_cases hc <;> exact ⟨by decide, by decide⟩)
    (Or.inr ⟨"txt", rfl, by intro c hc; fin_cases hc <;> exact ⟨by decide, by decide⟩⟩)
  constructor
  · rw [show "database/csv/cars.csv" = "database/csv" ++ "/" ++ "cars" ++ ".csv" by rfl]
    rw [h1]
    rfl
  · rw [show "database/csv/data.txt" = "database/csv" ++ "/" ++ "data" ++ ".txt" by rfl]
    rw [h2]
    rfl

theorem chunks_cons_eq {α : Type} (b : Nat) (hb : b ≠ 0) (l : List α) (hl : l ≠ []) :
    chunks b l = l.take b :: chunks b (l.drop b) := by
  match b, l with
  | b + 1, x :: xs => rw [chunks]
  | 0, l => exact absurd rfl hb
  | b + 1, [] => exact absurd rfl hl

namespace ChromaDB

/-- The batch payloads the `insert_many` loop submits, in order: the pure
chunking skeleton of `chromaLoop`. -/
def chromaPayloads (b : Nat) (txts : List String) (vecs : List (List Int))
    (mds : List Md) (rids : List String) : List CPayload :=
  if b = 0 then []
  else if txts.isEmpty then []
  else CPayload.mk (txts.take b) (mds.take b) (rids.take b) (vecs.take b) ::
    chromaPayloads b (txts.drop b) (vecs.drop b) (mds.drop b) (rids.drop b)
termination_by txts.length
decreasing_by
  simp only [List.length_drop]
  rcases txts with _ | ⟨x, xs⟩
  · simp_all
  · simp only [List.length_cons]; omega

theorem chromaLoop_eq_batchOutcome (add : CPayload → Bool) (b : Nat) (hb : b ≠ 0)
    (txts : List String) (vecs : List (List Int)) (mds : List Md)
    (rids : List String) :
    chromaLoop add b txts vecs mds rids
      = batchOutcome add (chromaPayloads b txts vecs mds rids) := by
  rw [chromaLoop, chromaPayloads]
  by_cases ht : txts.isEmpty
  · simp [hb, ht, batchOutcome]
  · have ih := chromaLoop_eq_batchOutcome add b hb (txts.drop b) (vecs.drop b)
      (mds.drop b) (rids.drop b)
    simp only [hb, ht, dif_neg, if_neg, dite_false, ite_false]
    simp only [batchOutcome]
    by_cases ha : add (CPayload.mk (txts.take b) (mds.take b) (rids.take b) (vecs.take b))
    · simp [ha, ih]
    · simp [ha]
termination_by txts.length
decreasing_by
  simp only [List.length_drop]
  rcases txts with _ | ⟨x, xs⟩
  · simp_all
  · simp only [List.length_cons]; omega

theorem chromaPayloads_components (b : Nat) (hb : b ≠ 0)
    (txts : List String) (vecs : List (List Int)) (mds : List Md)
    (rids : List String)
    (hv : vecs.length = txts.length) (hm : mds.length = txts.length)
    (hr : rids.length = txts.length) :
    (chromaPayloads b txts vecs mds rids).map (fun p => p.documents)
        = chunks b txts ∧
    (chromaPayloads b txts vecs mds rids).map (fun p => p.metadatas)
        = chunks b mds ∧
    (chromaPayloads b txts vecs mds rids).map (fun p => p.ids)
        = chunks b rids ∧
    (chromaPayloads b txts vecs mds rids).map (fun p => p.embeddings)
        = chunks b vecs := by
  by_cases ht : txts.isEmpty
  · have htn : txts = [] := List.isEmpty_iff.mp ht
    subst htn
    have hv0 : vecs = [] := List.length_eq_zero.mp (by simpa using hv)
    have hm0 : mds = [] := List.length_eq_zero.mp (by simpa using hm)
    have hr0 : rids = [] := List.length_eq_zero.mp (by simpa using hr)
    subst hv0; subst hm0; subst hr0
    rw [chromaPayloads]
    rcases b with _ | b
    · exact absurd rfl hb
    · simp [chunks]
  · have htn : txts ≠ [] := by simpa [List.isEmpty_iff] using ht
    have hvn : vecs ≠ [] := by
      intro h0
      rw [h0] at hv
      simp only [List.length_nil] at hv
      exact htn (List.length_eq_zero.mp hv.symm)
    have hmn : mds ≠ [] := by
      intro h0
      rw [h0] at hm
      simp only [List.length_nil] at hm
      exact htn (List.length_eq_zero.mp hm.symm)
    have hrn : rids ≠ [] := by
      intro h0
      rw [h0] at hr
      simp only [List.length_nil] at hr
      exact htn (List.length_eq_zero.mp hr.symm)
    obtain ⟨c1, c2, c3, c4⟩ := chromaPayloads_components b hb
      (txts.drop b) (vecs.drop b) (mds.drop b) (rids.drop b)
      (by simp [List.length_drop, hv]) (by simp [List.length_drop, hm])
      (by simp [List.length_drop, hr])
    rw [chromaPayloads, if_neg hb, if_neg ht]
    rw [chunks_cons_eq b hb txts htn, chunks_cons_eq b hb mds hmn,
      chunks_cons_eq b hb rids hrn, chunks_cons_eq b hb vecs hvn]
    refine ⟨?_, ?_, ?_, ?_⟩
    · simp only [List.map_cons, c1]
    · simp only [List.map_cons, c2]
    · simp only [List.map_cons, c3]
    · simp only [List.map_cons, c4]
termination_by txts.length
decreasing_by
  rcases txts with _ | ⟨x, xs⟩
  · exact absurd rfl htn
  · simp only [List.length_drop, List.length_cons]
    omega

end ChromaDB

namespace QdrantDB

theorem buildRecords_eq_zip (txts : List String) (vecs : List (List Int))
    (mds : List (Option Md)) (rids : List QId)
    (hv : vecs.length = txts.length) (hm : mds.length = txts.length)
    (hr : rids.length = txts.length) :
    buildRecords txts vecs mds rids = Except.ok (zipRecords txts vecs mds rids) := by
  induction txts generalizing vecs mds rids with
  | nil =>
    have hv0 : vecs = [] := List.length_eq_zero.mp (by simpa using hv)
    have hm0 : mds = [] := List.length_eq_zero.mp (by simpa using hm)
    have hr0 : rids = [] := List.length_eq_zero.mp (by simpa using hr)
    subst hv0; subst hm0; subst hr0
    rfl
  | cons t ts ih =>
    rcases vecs with _ | ⟨v, vs⟩
    · simp at hv
    rcases mds with _ | ⟨m, ms⟩
    · simp at hm
    rcases rids with _ | ⟨r, rs⟩
    · simp at hr
    simp only [buildRecords, zipRecords,
      ih vs ms rs (by simpa using hv) (by simpa using hm) (by simpa using hr)]
    rfl

theorem zipRecords_take (b : Nat) (txts : List String) (vecs : List (List Int))
    (mds : List (Option Md)) (rids : List QId)
    (hv : vecs.length = txts.length) (hm : mds.length = txts.length)
    (hr : rids.length = txts.length) :
    zipRecords (txts.take b) (vecs.take b) (mds.take b) (rids.take b)
      = (zipRecords txts vecs mds rids).take b := by
  induction txts generalizing b vecs mds rids with
  | nil =>
    have hv0 : vecs = [] := List.length_eq_zero.mp (by simpa using hv)
    have hm0 : mds = [] := List.length_eq_zero.mp (by simpa using hm)
    have hr0 : rids = [] := List.length_eq_zero.mp (by simpa using hr)
    subst hv0; subst hm0; subst hr0
    simp [zipRecords]
  | cons t ts ih =>
    rcases vecs with _ | ⟨v, vs⟩
    · simp at hv
    rcases mds with _ | ⟨m, ms⟩
    · simp at hm
    rcases rids with _ | ⟨r, rs⟩
    · simp at hr
    rcases b with _ | b
    · simp [zipRecords]
    · simp only [List.take_succ_cons, zipRecords,
        ih b vs ms rs (by simpa using hv) (by simpa using hm) (by simpa using hr)]

theorem zipRecords_drop (b : Nat) (txts : List String) (vecs : List (List Int))
    (mds : List (Option Md)) (rids : List QId)
    (hv : vecs.length = txts.length) (hm : mds.length = txts.length)
    (hr : rids.length = txts.length) :
    zipRecords (txts.drop b) (vecs.drop b) (mds.drop b) (rids.drop b)
      = (zipRecords txts vecs mds rids).drop b := by
  induction txts generalizing b vecs mds rids with
  | nil =>
    have hv0 : vecs = [] := List.length_eq_zero.mp (by simpa using hv)
    have hm0 : mds = [] := List.length_eq_zero.mp (by simpa using hm)
    have hr0 : rids = [] := List.length_eq_zero.mp (by simpa using hr)
    subst hv0; subst hm0; subst hr0
    simp [zipRecords]
  | cons t ts ih =>
    rcases vecs with _ | ⟨v, vs⟩
    · simp at hv
    rcases mds with _ | ⟨m, ms⟩
    · simp at hm
    rcases rids with _ | ⟨r, rs⟩
    · simp at hr
    rcases b with _ | b
    · simp
    · simp only [List.drop_succ_cons, zipRecords,
        ih b vs ms rs (by simpa using hv) (by simpa using hm) (by simpa using hr)]

theorem zipRecords_length (txts : List String) (vecs : List (List Int))
    (mds : List (Option Md)) (rids : List QId)
    (hv : vecs.length = txts.length) (hm : mds.length = txts.length)
    (hr : rids.length = txts.length) :
    (zipRecords txts vecs mds rids).length = txts.length := by
  induction txts generalizing vecs mds rids with
  | nil => simp [zipRecords]
  | cons t ts ih =>
    rcases vecs with _ | ⟨v, vs⟩
    · simp at hv
    rcases mds with _ | ⟨m, ms⟩
    · simp at hm
    rcases rids with _ | ⟨r, rs⟩
    · simp at hr
    simp only [zipRecords, List.length_cons,
      ih vs ms rs (by simpa using hv) (by simpa using hm) (by simpa using hr)]

theorem qdrantLoop_eq_batchOutcome (upload : List QRec → Bool) (b : Nat)
    (hb : b ≠ 0) (txts : List String) (vecs : List (List Int))
    (mds : List (Option Md)) (rids : List QId)
    (hv : vecs.length = txts.length) (hm : mds.length = txts.length)
    (hr : rids.length = txts.length) :
    qdrantLoop upload b txts vecs mds rids
      = Except.ok (batchOutcome upload (chunks b (zipRecords txts vecs mds rids))) := by
  rw [qdrantLoop]
  by_cases ht : txts.isEmpty
  · have htn : txts = [] := List.isEmpty_iff.mp ht
    subst htn
    have hv0 : vecs = [] := List.length_eq_zero.mp (by simpa using hv)
    have hm0 : mds = [] := List.length_eq_zero.mp (by simpa using hm)
    have hr0 : rids = [] := List.length_eq_zero.mp (by simpa using hr)
    subst hv0; subst hm0; subst hr0
    simp [hb, zipRecords, chunks, batchOutcome]
  · have htn : txts ≠ [] := by simpa [List.isEmpty_iff] using ht
    have hzn : zipRecords txts vecs mds rids ≠ [] := by
      intro h0
      have := zipRecords_length txts vecs mds rids hv hm hr
      rw [h0] at this
      simp only [List.length_nil] at this
      exact htn (List.length_eq_zero.mp this.symm)
    have htake : zipRecords (txts.take b) (vecs.take b) (mds.take b) (rids.take b)
        = (zipRecords txts vecs mds rids).take b :=
      zipRecords_take b txts vecs mds rids hv hm hr
    have hbuild := buildRecords_eq_zip (txts.take b) (vecs.take b) (mds.take b)
      (rids.take b) (by simp [hv]) (by simp [hm]) (by simp [hr])
    have ih := qdrantLoop_eq_batchOutcome upload b hb (txts.drop b) (vecs.drop b)
      (mds.drop b) (rids.drop b) (by simp [List.length_drop, hv])
      (by simp [List.length_drop, hm]) (by simp [List.length_drop, hr])
    rw [dif_neg hb, dif_neg ht, hbuild, htake]
    rw [chunks_cons_eq b hb _ hzn]
    simp only [batchOutcome]
    by_cases hu : upload ((zipRecords txts vecs mds rids).take b)
    · rw [if_pos hu, if_pos hu, ih,
        zipRecords_drop b txts vecs mds rids hv hm hr]
    · rw [if_neg hu, if_neg hu]
termination_by txts.length
decreasing_by
  rcases txts with _ | ⟨x, xs⟩
  · exact absurd rfl htn
  · simp only [List.length_drop, List.length_cons]
    omega

end QdrantDB

/-- C3: on either variant, `insert_many` splits the input into consecutive
batches of at most `batch_size` records, submitted strictly in order; if the
backend rejects batch `k`, the batches before `k` were all accepted (and thus
persisted), batch `k+1` onwards is never attempted, and the call returns
`false`; if no batch fails every batch is submitted and the call returns
`true`. -/
theorem C3_insert_many_batching (add : ChromaDB.CPayload → Bool)
    (upload : List QdrantDB.QRec → Bool)
    (texts : List String) (vectors : List (List Int))
    (cmds : List Md) (crids : List String)
    (qmds : List (Option Md)) (qids : List QdrantDB.QId)
    (b : Nat) (hb : 0 < b)
    (hv : vectors.length = texts.length) (hcm : cmds.length = texts.length)
    (hcr : crids.length = texts.length) (hqm : qmds.length = texts.length)
    (hqr : qids.length = texts.length) :
    ((chunks b texts).flatten = texts ∧ ∀ c ∈ chunks b texts, c.length ≤ b) ∧
    (ChromaDB.insert_many true add texts vectors (some cmds) (some crids) b
      = batchOutcome add (ChromaDB.chromaPayloads b texts vectors cmds crids)) ∧
    ((ChromaDB.chromaPayloads b texts vectors cmds crids).map
        (fun p => p.documents) = chunks b texts) ∧
    (QdrantDB.insert_many upload texts vectors (some qmds) (some qids) b
      = Except.ok (batchOutcome upload
          (chunks b (QdrantDB.zipRecords texts vectors qmds qids)))) ∧
    ((chunks b (QdrantDB.zipRecords texts vectors qmds qids)).flatten
        = QdrantDB.zipRecords texts vectors qmds qids ∧
      ∀ c ∈ chunks b (QdrantDB.zipRecords texts vectors qmds qids),
        c.length ≤ b) ∧
    (∀ (π : Type) (ok : π → Bool) (ps : List π),
      (batchOutcome ok ps = ⟨true, ps⟩ ∧ ∀ p ∈ ps, ok p = true) ∨
      (∃ k, k < ps.length ∧ (∀ p ∈ ps.take k, ok p = true) ∧
        (∃ pk, ps.get? k = some pk ∧ ok pk = false) ∧
        batchOutcome ok ps = ⟨false, ps.take (k + 1)⟩)) := by
  have hb0 : b ≠ 0 := by omega
  refine ⟨⟨chunks_flatten b hb texts, chunks_length_le b texts⟩, ?_, ?_, ?_, ?_, ?_⟩
  · show ChromaDB.chromaLoop add b texts vectors cmds crids = _
    exact ChromaDB.chromaLoop_eq_batchOutcome add b hb0 texts vectors cmds crids
  · exact (ChromaDB.chromaPayloads_components b hb0 texts vectors cmds crids
      hv hcm hcr).1
  · show QdrantDB.qdrantLoop upload b texts vectors qmds qids = _
    exact QdrantDB.qdrantLoop_eq_batchOutcome upload b hb0 texts vectors qmds qids
      hv hqm hqr
  · exact ⟨chunks_flatten b hb _, chunks_length_le b _⟩
  · intro π ok ps
    exact batchOutcome_spec ok ps

/-- C3 witness: five records at batch size 2, where the Chroma backend rejects
the second batch (`["c","d"]`): batches 1 and 2 are submitted, batch 3 is
never attempted, and the call returns `false`; and a one-record Qdrant insert
with an accepting backend returns `true`. -/
theorem C3_insert_many_batching_witness :
    ChromaDB.insert_many true (fun p => !(p.documents == ["c", "d"]))
      ["a", "b", "c", "d", "e"] [[1], [2], [3], [4], [5]]
      (some [[], [], [], [], []]) (some ["0", "1", "2", "3", "4"]) 2
      = ⟨false,
          [ChromaDB.CPayload.mk ["a", "b"] [[], []] ["0", "1"] [[1], [2]],
           ChromaDB.CPayload.mk ["c", "d"] [[], []] ["2", "3"] [[3], [4]]]⟩ ∧
    QdrantDB.insert_many (fun _ => true) ["a"] [[1]]
      (some [none]) (some [QdrantDB.QId.strId "id0"]) 50
      = Except.ok ⟨true,
          [[QdrantDB.QRec.mk (QdrantDB.QId.strId "id0") [1] "a" none]]⟩ := by
  have h := C3_insert_many_batching (fun p => !(p.documents == ["c", "d"]))
    (fun _ => true) ["a", "b", "c", "d", "e"] [[1], [2], [3], [4], [5]]
    [[], [], [], [], []] ["0", "1", "2", "3", "4"]
    [none, none, none, none, none]
    [QdrantDB.QId.strId "0", QdrantDB.QId.strId "1", QdrantDB.QId.strId "2",
     QdrantDB.QId.strId "3", QdrantDB.QId.strId "4"] 2
    (by decide) (by decide) (by decide) (by decide) (by decide) (by decide)
  have h2 := C3_insert_many_batching (fun p => !(p.documents == ["c", "d"]))
    (fun _ => true) ["a"] [[1]] [[]] ["0"] [none] [QdrantDB.QId.strId "id0"] 50
    (by decide) (by decide) (by decide) (by decide) (by decide) (by decide)
  constructor
  · refine h.2.1.trans ?_
    simp [ChromaDB.chromaPayloads, batchOutcome]
  · refine h2.2.2.2.1.trans ?_
    simp [chunks, QdrantDB.zipRecords, batchOutcome]

/-- C4 counterexample: `QdrantDBProvider.insert_many` has no existence guard;
with an empty record list the batch loop performs zero iterations and the
call returns `True` — even against a backend that rejects every upload
because the target collection does not exist (`fun _ => false`).  This
contradicts the claim that every insert call on a missing collection returns
`false` and logs an error. -/
theorem C4_counterexample :
    QdrantDB.insert_many (fun _ => false) [] [] none none 50
      = Except.ok ⟨true, []⟩ := by
  simp [QdrantDB.insert_many, QdrantDB.qdrantLoop]

/-- C4 (amended): when the target collection does not exist, `insert_one`
on either variant returns `false` after its existence guard without attempting
any backend call, and Chroma's `insert_many` returns `false` without
attempting any batch (its `get_collection` raises inside the `try`); Qdrant's
`insert_many` has no guard — with at least one record it attempts exactly the
first batch, which the backend rejects, returning `false` with nothing
persisted, but with an empty record list it returns `true`. -/
theorem C4_missing_collection_inserts_amended
    (add : ChromaDB.CPayload → Bool) (upload : List QdrantDB.QRec → Bool)
    (fresh text : String) (vector : List Int) (md : Option Md)
    (rid : Option String) (qrid : QdrantDB.QId)
    (texts : List String) (vectors : List (List Int))
    (metadata : Option (List Md)) (record_ids : Option (List String))
    (b : Nat) (hb : 0 < b) (ht : texts ≠ [])
    (hv : vectors.length = texts.length)
    (hup : ∀ r, upload r = false) :
    ChromaDB.insert_one false add fresh text vector md rid = ⟨false, []⟩ ∧
    QdrantDB.insert_one false upload text vector md qrid = ⟨false, []⟩ ∧
    ChromaDB.insert_many false add texts vectors metadata record_ids b
      = ⟨false, []⟩ ∧
    QdrantDB.insert_many upload texts vectors none none b
      = Except.ok ⟨false,
          [QdrantDB.zipRecords (texts.take b) (vectors.take b)
            ((List.replicate texts.length (none : Option Md)).take b)
            (((List.range texts.length).map QdrantDB.QId.intId).take b)]⟩ := by
  refine ⟨rfl, rfl, rfl, ?_⟩
  have hb0 : b ≠ 0 := by omega
  have hte : ¬texts.isEmpty := by simpa [List.isEmpty_iff] using ht
  show QdrantDB.qdrantLoop upload b texts vectors
    (List.replicate texts.length none) ((List.range texts.length).map
      QdrantDB.QId.intId) = _
  rw [QdrantDB.qdrantLoop, dif_neg hb0, dif_neg hte]
  rw [QdrantDB.buildRecords_eq_zip (texts.take b) (vectors.take b) _ _
    (by simp [hv]) (by simp) (by simp)]
  simp [hup]

/-- C4 witness: one concrete record against a missing Qdrant collection is
rejected at the first (and only) attempted batch, and the guarded paths
return `false` with no backend call. -/
theorem C4_missing_collection_inserts_amended_witness :
    ChromaDB.insert_one false (fun _ => true) "u1" "t" [1] none none
      = ⟨false, []⟩ ∧
    QdrantDB.insert_many (fun _ => false) ["a"] [[1]] none none 50
      = Except.ok ⟨false,
          [[QdrantDB.QRec.mk (QdrantDB.QId.intId 0) [1] "a" none]]⟩ := by
  have h := C4_missing_collection_inserts_amended (fun _ => true)
    (fun _ => false) "u1" "t" [1] none none (QdrantDB.QId.intId 0)
    ["a"] [[1]] none none 50 (by decide) (by decide) (by decide)
    (fun _ => rfl)
  refine ⟨h.1, h.2.2.2.trans ?_⟩
  simp [QdrantDB.zipRecords]

namespace ChromaDB

theorem chromaPayloads_len_eq (b : Nat) (hb : b ≠ 0)
    (txts : List String) (vecs : List (List Int)) (mds : List Md)
    (rids : List String)
    (hv : vecs.length = txts.length) (hm : mds.length = txts.length)
    (hr : rids.length = txts.length) :
    ∀ p ∈ chromaPayloads b txts vecs mds rids,
      p.metadatas.length = p.documents.length ∧
      p.ids.length = p.documents.length ∧
      p.embeddings.length = p.documents.length := by
  intro p hp
  by_cases ht : txts.isEmpty
  · rw [chromaPayloads] at hp
    rcases b with _ | b
    · exact absurd rfl hb
    · simp [ht] at hp
  · have htn : txts ≠ [] := by simpa [List.isEmpty_iff] using ht
    rw [chromaPayloads, if_neg hb, if_neg ht, List.mem_cons] at hp
    rcases hp with hp | hp
    · subst hp
      simp only [List.length_take]
      omega
    · exact chromaPayloads_len_eq b hb (txts.drop b) (vecs.drop b) (mds.drop b)
        (rids.drop b) (by simp [List.length_drop, hv])
        (by simp [List.length_drop, hm]) (by simp [List.length_drop, hr]) p hp
termination_by txts.length
decreasing_by
  rcases txts with _ | ⟨x, xs⟩
  · exact absurd rfl htn
  · simp only [List.length_drop, List.length_cons]
    omega

theorem records_length (p : CPayload)
    (hm : p.metadatas.length = p.documents.length)
    (hr : p.ids.length = p.documents.length)
    (he : p.embeddings.length = p.documents.length) :
    p.records.length = p.documents.length := by
  simp only [CPayload.records, List.length_map, List.length_zip]
  omega

theorem payload_records_total (b : Nat) (hb : b ≠ 0)
    (txts : List String) (vecs : List (List Int)) (mds : List Md)
    (rids : List String)
    (hv : vecs.length = txts.length) (hm : mds.length = txts.length)
    (hr : rids.length = txts.length) :
    (((chromaPayloads b txts vecs mds rids).map
        (fun p => p.records)).flatten).length = txts.length := by
  rw [List.length_flatten]
  have h1 : ((chromaPayloads b txts vecs mds rids).map
      (fun p => p.records)).map List.length
      = ((chromaPayloads b txts vecs mds rids).map
          (fun p => p.documents)).map List.length := by
    simp only [List.map_map]
    apply List.map_congr_left
    intro p hp
    obtain ⟨e1, e2, e3⟩ := chromaPayloads_len_eq b hb txts vecs mds rids
      hv hm hr p hp
    simp only [Function.comp_apply]
    exact records_length p e1 e2 e3
  rw [h1, (chromaPayloads_components b hb txts vecs mds rids hv hm hr).1,
    ← List.length_flatten, chunks_flatten b (by omega) txts]

theorem foldl_applyPayload (calls : List CPayload) (c : List CRec) :
    calls.foldl applyPayload c = c ++ (calls.map (fun p => p.records)).flatten := by
  induction calls generalizing c with
  | nil => simp
  | cons p ps ih =>
    simp only [List.foldl_cons, List.map_cons, List.flatten_cons]
    rw [show applyPayload c p = c ++ p.records from rfl, ih, List.append_assoc]

theorem getCol_updateCol (s : Store) (n : String) (f : List CRec → List CRec) :
    getCol (updateCol s n f) n = (getCol s n).map f := by
  induction s with
  | nil => rfl
  | cons q s ih =>
    by_cases hq : q.1 = n
    · have hbeq : (q.1 == n) = true := by simp [hq]
      have h1 : updateCol (q :: s) n f = (q.1, f q.2) :: updateCol s n f := by
        simp [updateCol, hbeq, hq]
      rw [h1]
      simp [getCol, List.find?, hbeq]
    · have hbeq : (q.1 == n) = false := by simp [hq]
      have h1 : updateCol (q :: s) n f = q :: updateCol s n f := by
        simp [updateCol, hbeq, hq]
      rw [h1]
      rw [show getCol (q :: updateCol s n f) n = getCol (updateCol s n f) n by
        simp [getCol, List.find?, hbeq]]
      rw [show getCol (q :: s) n = getCol s n by simp [getCol, List.find?, hbeq]]
      exact ih

theorem existed_of_getCol (s : Store) (n : String) (c : List CRec)
    (h : getCol s n = some c) : is_collection_existed s n = true := by
  induction s with
  | nil => simp [getCol] at h
  | cons p s ih =>
    by_cases hp : (p.1 == n) = true
    · simp [is_collection_existed, hp]
    · simp only [Bool.not_eq_true] at hp
      simp only [getCol, List.find?, hp] at h
      have := ih (by simpa [getCol] using h)
      simp only [is_collection_existed, List.any_cons, hp, Bool.false_or]
      simpa [is_collection_existed] using this

theorem get_collection_info_eq (s : Store) (n : String) (c : List CRec)
    (h : getCol s n = some c) :
    get_collection_info s n = some (n, c.length) := by
  unfold get_collection_info
  rw [h]

end ChromaDB

/-- C7 helper: one Chroma-backed re-embedding run takes any prior store to a
collection holding exactly one document per dataset row. -/
theorem chroma_reindex_count (embed : String → List Int)
    (df : DataProcess.DataFrame) (file_name coll : String)
    (s : ChromaDB.Store) :
    (RAG.index_into_vector_db_chroma embed df file_name coll s).1
      = some (coll, df.rows.length) := by
  obtain ⟨h1, h2, h3, h4⟩ :=
    DataProcess.prepLoop_spec embed df.columns file_name df.rows 0
  set p := DataProcess.prepare_data_for_injection embed df file_name with hp
  have hl1 : p.1.length = df.rows.length := by
    rw [hp]; unfold DataProcess.prepare_data_for_injection; simp [h1]
  have hl2 : p.2.1.length = df.rows.length := by
    rw [hp]; unfold DataProcess.prepare_data_for_injection; simp [h2]
  have hl3 : p.2.2.1.length = df.rows.length := by
    rw [hp]; unfold DataProcess.prepare_data_for_injection; simp [h3]
  have hl4 : p.2.2.2.length = df.rows.length := by
    rw [hp]; unfold DataProcess.prepare_data_for_injection; simp [h4]
  have hv : p.2.2.2.length = p.1.length := by rw [hl4, hl1]
  have hm : p.2.1.length = p.1.length := by rw [hl2, hl1]
  have hr : p.2.2.1.length = p.1.length := by rw [hl3, hl1]
  have hfresh : ChromaDB.getCol (ChromaDB.create_collection s coll true).2 coll
      = some [] := (chroma_create_cases s coll).1.2.1
  have hex : ChromaDB.is_collection_existed
      (ChromaDB.create_collection s coll true).2 coll = true :=
    ChromaDB.existed_of_getCol _ coll [] hfresh
  have hloop : ChromaDB.insert_many true (fun _ => true) p.1 p.2.2.2
      (some p.2.1) (some p.2.2.1) 50
      = ⟨true, ChromaDB.chromaPayloads 50 p.1 p.2.2.2 p.2.1 p.2.2.1⟩ := by
    show ChromaDB.chromaLoop (fun _ => true) 50 p.1 p.2.2.2 p.2.1 p.2.2.1 = _
    rw [ChromaDB.chromaLoop_eq_batchOutcome (fun _ => true) 50 (by omega)]
    exact batchOutcome_const_true _
  show ChromaDB.get_collection_info
      (if ChromaDB.is_collection_existed
            (ChromaDB.create_collection s coll true).2 coll = true
       then ChromaDB.updateCol (ChromaDB.create_collection s coll true).2 coll
          (fun c => (ChromaDB.insert_many
              (ChromaDB.is_collection_existed
                (ChromaDB.create_collection s coll true).2 coll)
              (fun _ => true) p.1 p.2.2.2 (some p.2.1) (some p.2.2.1)
              50).calls.foldl ChromaDB.applyPayload c)
       else (ChromaDB.create_collection s coll true).2) coll
    = some (coll, df.rows.length)
  rw [hex, if_pos rfl, hloop]
  rw [ChromaDB.get_collection_info_eq _ coll
    (((ChromaDB.chromaPayloads 50 p.1 p.2.2.2 p.2.1 p.2.2.1).map
        (fun q => q.records)).flatten)
    (by rw [ChromaDB.getCol_updateCol, hfresh]
        simp only [Option.map_some]
        show some ((ChromaDB.chromaPayloads 50 p.1 p.2.2.2 p.2.1
          p.2.2.1).foldl ChromaDB.applyPayload []) = _
        rw [ChromaDB.foldl_applyPayload]
        simp only [List.nil_append])]
  rw [ChromaDB.payload_records_total 50 (by omega) p.1 p.2.2.2 p.2.1 p.2.2.1
    hv hm hr, hl1]

/-- C7: against the Chroma backend, running the re-embedding indexing twice on
an unchanged dataset yields, after each run, a collection whose document
count equals the dataset's row count — the reset inside `create_collection`
prevents any duplication or accumulation across runs. -/
theorem C7_reindex_idempotent_count (embed : String → List Int)
    (df : DataProcess.DataFrame) (file_name coll : String)
    (s : ChromaDB.Store) :
    (RAG.index_into_vector_db_chroma embed df file_name coll s).1
      = some (coll, df.rows.length) ∧
    (RAG.index_into_vector_db_chroma embed df file_name coll
        (RAG.index_into_vector_db_chroma embed df file_name coll s).2).1
      = some (coll, df.rows.length) :=
  ⟨chroma_reindex_count embed df file_name coll s,
   chroma_reindex_count embed df file_name coll _⟩
